import Mathlib

/-! The regular folder accessor of nova-renderer.

A shallow embedding of `native/src/loading/regular_folder_accessor.cpp`.

The accessor is a C++ object with two members inherited from
`folder_accessor_base`: the root directory `our_folder` and the existence
cache `resource_existance`.  Its member functions talk to the outside world
through three library primitives (`fs::exists`, `std::ifstream`,
`fs::directory_iterator`) and through the logger.  The embedding makes all of
this explicit:

* the filesystem is a parameter of every operation (a record of the answers
  the three primitives give), so it may differ from one call to the next;
* every call of a primitive is appended to a call record, and every logged
  line to a log, both carried in `effects`;
* a C++ exception is the `Except.error` result of an operation; the accessor
  state and the effects reached when it was thrown are returned with it.
-/

namespace nova

/-! ## Library types: paths, errors, streams -/

/-- Directory separator test of the POSIX build of the filesystem library. -/
def is_dir_sep (c : Char) : Bool := c == '/'

/-- An `fs::path`: the pathname it holds. -/
structure path where
  pathname : String
deriving DecidableEq

/-- The member `path::string()`. -/
def path.string (p : path) : String := p.pathname

/-- The member `path::operator/=` of `std::experimental::filesystem`: a separator is
added unless the left side is empty or ends in one, or the right side is
empty or starts with one; then the right pathname is appended. -/
def path.append (lhs rhs : path) : path :=
  match lhs.pathname.data.getLast?, rhs.pathname.data.head? with
  | some l, some r =>
    if is_dir_sep l || is_dir_sep r then ⟨lhs.pathname ++ rhs.pathname⟩
    else ⟨lhs.pathname ++ "/" ++ rhs.pathname⟩
  | _, _ => ⟨lhs.pathname ++ rhs.pathname⟩

instance : HDiv path path path := ⟨path.append⟩

/-- The error conditions an `fs::filesystem_error` reports. -/
inductive errc where
  | no_such_file_or_directory
  | not_a_directory
  | permission_denied
  | io_error
deriving DecidableEq

/-- An `fs::filesystem_error`: the path it was raised for and its error code. -/
structure filesystem_error where
  path1 : String
  code : errc
deriving DecidableEq

/-- The filesystem as the accessor sees it during one call.

* `fs_exists p` is the outcome of `fs::exists(p)`: an answer, or the
  `filesystem_error` it throws when the status of `p` cannot be determined.
* `ifstream_open p` is the content of the stream `std::ifstream(p)` when the
  stream is `good()` after construction, `none` when it is not.
* `directory_iterator p` is what iterating `fs::directory_iterator(p)` gives:
  the file names of the entries produced, in order, and the error thrown by
  the constructor or by an increment, if any (a constructor failure produces
  no entry). -/
structure filesystem where
  fs_exists : String → Except filesystem_error Bool
  ifstream_open : String → Option String
  directory_iterator : String → List String × Option filesystem_error

/-- An `fs::directory_entry`. -/
structure directory_entry where
  path : path
deriving DecidableEq

/-- The entries produced by `fs::directory_iterator(dir)`: each one holds the
directory path followed by the entry's file name. -/
def directory_entries (dir : path) (names : List String) : List directory_entry :=
  names.map fun name => ⟨dir / ⟨name⟩⟩

/-- One call `getline(stream, buf)` on the characters left in the stream: with
nothing left no character is extracted and the call fails; otherwise
characters are moved to `buf` up to the next newline, which is extracted and
dropped, or up to the end of the stream.  Returns `buf` and the characters
left. -/
def getline : List Char → Option (List Char × List Char)
  | [] => none
  | c :: cs =>
    some ((c :: cs).takeWhile (· != '\n'), ((c :: cs).dropWhile (· != '\n')).tail)

/-! ## Logging and call records -/

/-- Modelled from the spec: the logger's levels (`util/logger.hpp` is not among the
sources); the accessor logs at DEBUG and INFO. -/
inductive log_level where
  | DEBUG
  | INFO
deriving DecidableEq

/-- A call of one of the filesystem primitives. -/
inductive fs_call where
  | fs_exists (p : String)
  | ifstream_open (p : String)
  | directory_iterator (p : String)
deriving DecidableEq

/-- The effects of the accessor on its surroundings: the filesystem calls it
made and the lines it logged, oldest first. -/
structure effects where
  calls : List fs_call
  logged : List (log_level × String)
deriving DecidableEq

/-- Record a filesystem call. -/
def effects.call (w : effects) (c : fs_call) : effects :=
  { w with calls := w.calls ++ [c] }

/-- Record a logged line. -/
def effects.log (w : effects) (level : log_level) (msg : String) : effects :=
  { w with logged := w.logged ++ [(level, msg)] }

/-! ## The accessor -/

/-- Modelled from the spec: the existence cache, "per-accessor mapping from
normalized path string to a previously observed existence boolean"; the
member's declaration (`folder_accessor.hpp`) is not among the sources.  Kept as
the list of its entries, oldest first. -/
abbrev existence_map := List (String × Bool)

/-- The member `find` of the map, as an optional value. -/
def existence_map.find (m : existence_map) (key : String) : Option Bool :=
  List.lookup key m

/-- The member `emplace` of a standard map: the entry is inserted only when the
map holds no entry with that key; an existing entry is left as it is. -/
def existence_map.emplace (m : existence_map) (key : String) (value : Bool) :
    existence_map :=
  match m.find key with
  | some _ => m
  | none => m ++ [(key, value)]

/-- Modelled from the spec: the exceptions of the accessor (declared in
`folder_accessor.hpp`): `resource_not_found_error` "carries the resolved path
string", `filesystem_exception` "wraps the underlying system error".  The
third case is a `filesystem_error` of the library that leaves the accessor
uncaught. -/
inductive exception where
  | resource_not_found_error (resource_path : String)
  | filesystem_exception (error : filesystem_error)
  | filesystem_error (error : filesystem_error)
deriving DecidableEq

deriving instance DecidableEq for Except

/-- Modelled from the spec: the members of the accessor, which it has from
`folder_accessor_base` (declared in `folder_accessor.hpp`, not among the
sources): the "root directory", "an immutable path set at accessor
construction", and the existence cache, "owned exclusively by the accessor
instance".  The names are those the member functions use. -/
structure regular_folder_accessor where
  our_folder : path
  resource_existance : existence_map
deriving DecidableEq

/-- Modelled from the spec: the constructor, which hands `folder` to the
constructor of `folder_accessor_base` (not among the sources): the root is
set, and the cache, whose entries are "created on first existence check or
first failed read", starts empty. -/
def regular_folder_accessor.ctor (folder : path) : regular_folder_accessor :=
  ⟨folder, []⟩

/-- What a member function leaves behind: the value it returns or the
exception it throws, the accessor afterwards and the effects so far. -/
structure outcome (α : Type) where
  result : Except exception α
  self : regular_folder_accessor
  world : effects
deriving DecidableEq

/-- Modelled from the spec: `does_resource_exist_in_map` of `folder_accessor_base`
(its body is not among the sources), "checks the cache first; on a cache hit,
returns the cached boolean". -/
def does_resource_exist_in_map (self : regular_folder_accessor)
    (resource_string : String) : Option Bool :=
  self.resource_existance.find resource_string

/-- The member `regular_folder_accessor::does_resource_exist_internal`. -/
def does_resource_exist_internal (fs : filesystem) (self : regular_folder_accessor)
    (w : effects) (resource_path : path) : outcome Bool :=
  let resource_string := resource_path.string
  match does_resource_exist_in_map self resource_string with
  | some existance => ⟨.ok existance, self, w⟩
  | none =>
    let w1 := w.call (.fs_exists resource_string)
    match fs.fs_exists resource_string with
    | .error e => ⟨.error (.filesystem_error e), self, w1⟩
    | .ok true =>
      ⟨.ok true,
        { self with
          resource_existance := self.resource_existance.emplace resource_string true },
        w1⟩
    | .ok false =>
      ⟨.ok false,
        { self with
          resource_existance := self.resource_existance.emplace resource_string false },
        w1⟩

/-- The loop `while(getline(resource_stream, buf)) file_string += buf;`. -/
def read_lines (stream : List Char) (file_string : String) : String :=
  match h : getline stream with
  | none => file_string
  | some (buf, rest) => read_lines rest (file_string ++ String.mk buf)
termination_by stream.length
decreasing_by
  cases stream with
  | nil => simp [getline] at h
  | cons c cs =>
    simp only [getline, Option.some.injEq, Prod.mk.injEq] at h
    rw [← h.2, List.length_tail]
    have hle := (List.dropWhile_sublist (· != '\n') (l := c :: cs)).length_le
    simp only [List.length_cons] at hle ⊢
    omega

/-- The member `regular_folder_accessor::read_text_file`. -/
def read_text_file (fs : filesystem) (self : regular_folder_accessor) (w : effects)
    (resource_path : path) : outcome String :=
  let full_resource_path := self.our_folder / resource_path
  let r := does_resource_exist_internal fs self w full_resource_path
  match r.result with
  | .error e => ⟨.error e, r.self, r.world⟩
  | .ok false =>
    ⟨.error (.resource_not_found_error full_resource_path.string), r.self,
      r.world.log .DEBUG
        ("Resource at path " ++ full_resource_path.string ++ " does not exist")⟩
  | .ok true =>
    let w1 := r.world.call (.ifstream_open full_resource_path.string)
    match fs.ifstream_open full_resource_path.string with
    | none =>
      let resource_string := full_resource_path.string
      ⟨.error (.resource_not_found_error resource_string),
        { r.self with
          resource_existance := r.self.resource_existance.emplace resource_string false },
        w1.log .DEBUG ("Could not load resource at path " ++ resource_string)⟩
    | some content => ⟨.ok (read_lines content.data ""), r.self, w1⟩

/-- The body of the range-for loop of `get_all_items_in_folder`, over the
entries the iterator produces: each entry is logged and its path pushed
back. -/
def collect_entries : List directory_entry → List path → effects → List path × effects
  | [], paths, w => (paths, w)
  | entry :: entries, paths, w =>
    collect_entries entries (paths ++ [entry.path]) (w.log .INFO entry.path.string)

/-- The member `regular_folder_accessor::get_all_items_in_folder`. -/
def get_all_items_in_folder (fs : filesystem) (self : regular_folder_accessor)
    (w : effects) (folder : path) : outcome (List path) :=
  let full_path := self.our_folder / folder
  let w1 := w.call (.directory_iterator full_path.string)
  let listing := fs.directory_iterator full_path.string
  let collected := collect_entries (directory_entries full_path listing.1) [] w1
  match listing.2 with
  | some error => ⟨.error (.filesystem_exception error), self, collected.2⟩
  | none => ⟨.ok collected.1, self, collected.2⟩

/-! ## Sequences of calls -/

/-- A call of one of the three member functions of the source file. -/
inductive operation where
  | read_text_file (resource_path : path)
  | get_all_items_in_folder (folder : path)
  | does_resource_exist_internal (resource_path : path)

/-- The accessor and the effects after one call, made on the filesystem as it
is at that moment; a thrown exception ends the call, not the accessor. -/
def step (fs : filesystem) (op : operation) (s : regular_folder_accessor × effects) :
    regular_folder_accessor × effects :=
  match op with
  | .read_text_file p => ((read_text_file fs s.1 s.2 p).self, (read_text_file fs s.1 s.2 p).world)
  | .get_all_items_in_folder p =>
    ((get_all_items_in_folder fs s.1 s.2 p).self, (get_all_items_in_folder fs s.1 s.2 p).world)
  | .does_resource_exist_internal p =>
    ((does_resource_exist_internal fs s.1 s.2 p).self,
      (does_resource_exist_internal fs s.1 s.2 p).world)

/-- A sequence of calls, each with the filesystem it meets. -/
def run : List (filesystem × operation) → regular_folder_accessor × effects →
    regular_folder_accessor × effects
  | [], s => s
  | (fs, op) :: rest, s => run rest (step fs op s)

/-! ## Example filesystems -/

/-- A filesystem holding the one readable file `/assets/shaders/a.txt` with the
given content, in the directory `/assets/shaders`. -/
def assets_fs (content : String) : filesystem where
  fs_exists p := .ok (p == "/assets/shaders/a.txt" || p == "/assets/shaders" || p == "/assets")
  ifstream_open p := if p == "/assets/shaders/a.txt" then some content else none
  directory_iterator p :=
    if p == "/assets/shaders" then (["a.txt"], none)
    else if p == "/assets" then (["shaders"], none)
    else if p == "/assets/shaders/a.txt" then ([], some ⟨p, .not_a_directory⟩)
    else ([], some ⟨p, .no_such_file_or_directory⟩)

/-- A filesystem in which `/assets/shaders/a.txt` is still found by an existence
check but cannot be opened for reading. -/
def unreadable_fs : filesystem where
  fs_exists p := .ok (p == "/assets/shaders/a.txt" || p == "/assets/shaders" || p == "/assets")
  ifstream_open _ := none
  directory_iterator p :=
    if p == "/assets/shaders" then (["a.txt"], some ⟨p, .io_error⟩)
    else ([], some ⟨p, .permission_denied⟩)

/-- A filesystem holding nothing at all. -/
def empty_fs : filesystem where
  fs_exists _ := .ok false
  ifstream_open _ := none
  directory_iterator p := ([], some ⟨p, .no_such_file_or_directory⟩)

/-- The effects of an accessor that has done nothing yet. -/
def no_effects : effects := ⟨[], []⟩

/-! ## The lines of a text, as the specification speaks of them -/

/-- The lines of a sequence of characters: a newline ends the line it stands
in and belongs to no line; the characters after the last newline, if there
are any, are a last line. -/
def lines_of_chars : List Char → List (List Char)
  | [] => []
  | c :: cs =>
    if c = '\n' then [] :: lines_of_chars cs
    else
      match lines_of_chars cs with
      | [] => [[c]]
      | line :: lines => (c :: line) :: lines

/-- The lines of a text, without their terminators. -/
def text_lines (content : String) : List String :=
  (lines_of_chars content.data).map String.mk

/-- A text with every newline character removed. -/
def without_newlines (content : String) : String :=
  String.mk (content.data.filter (· != '\n'))

/-! ## Lemmas on the line loop -/

theorem getline_rest_length {stream buf rest : List Char}
    (h : getline stream = some (buf, rest)) : rest.length < stream.length := by
  cases stream with
  | nil => simp [getline] at h
  | cons c cs =>
    simp only [getline, Option.some.injEq, Prod.mk.injEq] at h
    rw [← h.2, List.length_tail]
    have hle := (List.dropWhile_sublist (· != '\n') (l := c :: cs)).length_le
    simp only [List.length_cons] at hle ⊢
    omega

theorem flatten_lines_of_chars (l : List Char) :
    (lines_of_chars l).flatten = l.filter (· != '\n') := by
  induction l with
  | nil => rfl
  | cons c cs ih =>
    unfold lines_of_chars
    by_cases hc : c = '\n'
    · simp [hc, ih]
    · simp only [hc, if_false]
      have hf : List.filter (fun x => x != '\n') (c :: cs)
          = c :: List.filter (fun x => x != '\n') cs := by
        simp [List.filter_cons, hc]
      rw [hf, ← ih]
      cases lines_of_chars cs <;> simp

theorem join_text_lines (content : String) :
    String.join (text_lines content) = without_newlines content := by
  rw [String.join_eq, text_lines, without_newlines, ← flatten_lines_of_chars]
  simp [List.map_map, Function.comp_def]


theorem filter_takeWhile_dropWhile_tail (p : Char → Bool) (l : List Char) :
    l.takeWhile p ++ ((l.dropWhile p).tail).filter p = l.filter p := by
  induction l with
  | nil => rfl
  | cons c cs ih =>
    by_cases hc : p c = true
    · simp [List.takeWhile_cons, List.dropWhile_cons, hc, ih]
    · simp [List.takeWhile_cons, List.dropWhile_cons, hc]

theorem read_lines_eq_aux (n : Nat) :
    ∀ (stream : List Char) (file_string : String), stream.length = n →
      read_lines stream file_string
        = file_string ++ String.mk (stream.filter (· != '\n')) := by
  induction n using Nat.strong_induction_on with
  | _ n ih =>
    intro stream file_string h
    cases stream with
    | nil =>
      unfold read_lines
      simp [getline, String.ext_iff]
    | cons c cs =>
      unfold read_lines
      simp only [getline]
      rw [ih _ (by rw [← h]; exact @getline_rest_length (c :: cs) _ _ rfl) _ _ rfl]
      rw [← filter_takeWhile_dropWhile_tail (· != '\n') (c :: cs)]
      simp [String.ext_iff]

theorem read_lines_eq (stream : List Char) (file_string : String) :
    read_lines stream file_string
      = file_string ++ String.mk (stream.filter (· != '\n')) :=
  read_lines_eq_aux stream.length stream file_string rfl

/-! ## Lemmas on the existence cache -/

theorem lookup_append_of_some {key : String} {b : Bool} (m m2 : List (String × Bool))
    (h : List.lookup key m = some b) : List.lookup key (m ++ m2) = some b := by
  induction m with
  | nil => simp at h
  | cons e es ih =>
    obtain ⟨k, v⟩ := e
    simp only [List.cons_append, List.lookup_cons] at h ⊢
    split
    · rename_i heq; rw [heq] at h; exact h
    · rename_i heq; rw [heq] at h; exact ih h

theorem lookup_append_of_none {key : String} (m m2 : List (String × Bool))
    (h : List.lookup key m = none) : List.lookup key (m ++ m2) = List.lookup key m2 := by
  induction m with
  | nil => rfl
  | cons e es ih =>
    obtain ⟨k, v⟩ := e
    simp only [List.cons_append, List.lookup_cons] at h ⊢
    split
    · rename_i heq; rw [heq] at h; simp at h
    · rename_i heq; rw [heq] at h; exact ih h

theorem emplace_of_find_some {m : existence_map} {key : String} {b : Bool} (value : Bool)
    (h : m.find key = some b) : m.emplace key value = m := by
  simp [existence_map.emplace, h]

theorem emplace_of_find_none {m : existence_map} {key : String} (value : Bool)
    (h : m.find key = none) : m.emplace key value = m ++ [(key, value)] := by
  simp [existence_map.emplace, h]

theorem find_emplace_of_find_none {m : existence_map} {key : String} (value : Bool)
    (h : m.find key = none) : (m.emplace key value).find key = some value := by
  rw [emplace_of_find_none value h]
  simp only [existence_map.find] at h ⊢
  rw [lookup_append_of_none m _ h]
  simp [List.lookup_cons]

/-- An entry of the cache survives every `emplace`, whatever its key and value. -/
theorem find_emplace_of_find_some {m : existence_map} {key : String} {b : Bool}
    (key2 : String) (value : Bool) (h : m.find key = some b) :
    (m.emplace key2 value).find key = some b := by
  unfold existence_map.emplace
  split
  · exact h
  · exact lookup_append_of_some m _ h

/-! ## Lemmas on `does_resource_exist_internal` -/

theorem does_resource_exist_internal_hit {fs : filesystem} {self : regular_folder_accessor}
    {w : effects} {resource_path : path} {b : Bool}
    (h : self.resource_existance.find resource_path.string = some b) :
    does_resource_exist_internal fs self w resource_path = ⟨.ok b, self, w⟩ := by
  simp [does_resource_exist_internal, does_resource_exist_in_map, h]

theorem does_resource_exist_internal_miss {fs : filesystem} {self : regular_folder_accessor}
    {w : effects} {resource_path : path} {b : Bool}
    (h : self.resource_existance.find resource_path.string = none)
    (hfs : fs.fs_exists resource_path.string = .ok b) :
    does_resource_exist_internal fs self w resource_path
      = ⟨.ok b,
          { self with
            resource_existance := self.resource_existance ++ [(resource_path.string, b)] },
          w.call (.fs_exists resource_path.string)⟩ := by
  cases b <;>
    simp [does_resource_exist_internal, does_resource_exist_in_map, h, hfs,
      emplace_of_find_none]

theorem does_resource_exist_internal_miss_error {fs : filesystem}
    {self : regular_folder_accessor} {w : effects} {resource_path : path}
    {e : filesystem_error}
    (h : self.resource_existance.find resource_path.string = none)
    (hfs : fs.fs_exists resource_path.string = .error e) :
    does_resource_exist_internal fs self w resource_path
      = ⟨.error (.filesystem_error e), self, w.call (.fs_exists resource_path.string)⟩ := by
  simp [does_resource_exist_internal, does_resource_exist_in_map, h, hfs]

/-- After an existence check that gave an answer, the cache holds that answer. -/
theorem does_resource_exist_internal_cached (fs : filesystem) (self : regular_folder_accessor)
    (w : effects) (resource_path : path) (b : Bool)
    (h : (does_resource_exist_internal fs self w resource_path).result = .ok b) :
    (does_resource_exist_internal fs self w resource_path).self.resource_existance.find
      resource_path.string = some b := by
  cases hc : self.resource_existance.find resource_path.string with
  | some c =>
    rw [does_resource_exist_internal_hit hc] at h ⊢
    simp only [Except.ok.injEq] at h
    rw [← h]; exact hc
  | none =>
    cases hfs : fs.fs_exists resource_path.string with
    | error e =>
      rw [does_resource_exist_internal_miss_error hc hfs] at h
      simp at h
    | ok c =>
      rw [does_resource_exist_internal_miss hc hfs] at h ⊢
      simp only [Except.ok.injEq] at h
      rw [← h, ← emplace_of_find_none c hc]
      exact find_emplace_of_find_none c hc

/-- The calls an existence check adds to the record: none, or the one call
of `fs::exists` on the path. -/
theorem does_resource_exist_internal_calls (fs : filesystem) (self : regular_folder_accessor)
    (w : effects) (resource_path : path) :
    (does_resource_exist_internal fs self w resource_path).world.calls = w.calls
    ∨ (does_resource_exist_internal fs self w resource_path).world.calls
        = w.calls ++ [.fs_exists resource_path.string] := by
  cases hc : self.resource_existance.find resource_path.string with
  | some c => left; rw [does_resource_exist_internal_hit hc]
  | none =>
    right
    cases hfs : fs.fs_exists resource_path.string with
    | error e => rw [does_resource_exist_internal_miss_error hc hfs]; rfl
    | ok c => rw [does_resource_exist_internal_miss hc hfs]; rfl

theorem does_resource_exist_internal_keeps (fs : filesystem) (self : regular_folder_accessor)
    (w : effects) (resource_path : path) (key : String) (b : Bool)
    (h : self.resource_existance.find key = some b) :
    (does_resource_exist_internal fs self w resource_path).self.resource_existance.find key
      = some b := by
  cases hc : self.resource_existance.find resource_path.string with
  | some c => rw [does_resource_exist_internal_hit hc]; exact h
  | none =>
    cases hfs : fs.fs_exists resource_path.string with
    | error e => rw [does_resource_exist_internal_miss_error hc hfs]; exact h
    | ok c =>
      rw [does_resource_exist_internal_miss hc hfs]
      exact lookup_append_of_some _ _ h

theorem does_resource_exist_internal_our_folder (fs : filesystem)
    (self : regular_folder_accessor) (w : effects) (resource_path : path) :
    (does_resource_exist_internal fs self w resource_path).self.our_folder = self.our_folder := by
  cases hc : self.resource_existance.find resource_path.string with
  | some c => rw [does_resource_exist_internal_hit hc]
  | none =>
    cases hfs : fs.fs_exists resource_path.string with
    | error e => rw [does_resource_exist_internal_miss_error hc hfs]
    | ok c => rw [does_resource_exist_internal_miss hc hfs]

/-! ## Lemmas on `read_text_file` -/

theorem read_text_file_of_not_exist {fs : filesystem} {self : regular_folder_accessor}
    {w : effects} {resource_path : path}
    (h : (does_resource_exist_internal fs self w (self.our_folder / resource_path)).result
      = .ok false) :
    read_text_file fs self w resource_path
      = ⟨.error (.resource_not_found_error (self.our_folder / resource_path).string),
          (does_resource_exist_internal fs self w (self.our_folder / resource_path)).self,
          (does_resource_exist_internal fs self w (self.our_folder / resource_path)).world.log
            .DEBUG
            ("Resource at path " ++ (self.our_folder / resource_path).string
              ++ " does not exist")⟩ := by
  simp only [read_text_file, h]

theorem read_text_file_of_check_error {fs : filesystem} {self : regular_folder_accessor}
    {w : effects} {resource_path : path} {e : exception}
    (h : (does_resource_exist_internal fs self w (self.our_folder / resource_path)).result
      = .error e) :
    read_text_file fs self w resource_path
      = ⟨.error e,
          (does_resource_exist_internal fs self w (self.our_folder / resource_path)).self,
          (does_resource_exist_internal fs self w (self.our_folder / resource_path)).world⟩ := by
  simp only [read_text_file, h]

theorem read_text_file_of_open {fs : filesystem} {self : regular_folder_accessor}
    {w : effects} {resource_path : path} {content : String}
    (h : (does_resource_exist_internal fs self w (self.our_folder / resource_path)).result
      = .ok true)
    (ho : fs.ifstream_open (self.our_folder / resource_path).string = some content) :
    read_text_file fs self w resource_path
      = ⟨.ok (read_lines content.data ""),
          (does_resource_exist_internal fs self w (self.our_folder / resource_path)).self,
          (does_resource_exist_internal fs self w (self.our_folder / resource_path)).world.call
            (.ifstream_open (self.our_folder / resource_path).string)⟩ := by
  simp only [read_text_file, h, ho]

/-- When the stream cannot be opened after a positive existence check, the
`emplace` of `false` meets the entry `true` that the check found or made, and
the accessor is left as the check left it. -/
theorem read_text_file_of_open_failure {fs : filesystem} {self : regular_folder_accessor}
    {w : effects} {resource_path : path}
    (h : (does_resource_exist_internal fs self w (self.our_folder / resource_path)).result
      = .ok true)
    (ho : fs.ifstream_open (self.our_folder / resource_path).string = none) :
    read_text_file fs self w resource_path
      = ⟨.error (.resource_not_found_error (self.our_folder / resource_path).string),
          (does_resource_exist_internal fs self w (self.our_folder / resource_path)).self,
          ((does_resource_exist_internal fs self w (self.our_folder / resource_path)).world.call
            (.ifstream_open (self.our_folder / resource_path).string)).log .DEBUG
            ("Could not load resource at path "
              ++ (self.our_folder / resource_path).string)⟩ := by
  have hc := does_resource_exist_internal_cached fs self w _ true h
  simp only [read_text_file, h, ho, emplace_of_find_some false hc]

theorem read_text_file_keeps (fs : filesystem) (self : regular_folder_accessor) (w : effects)
    (resource_path : path) (key : String) (b : Bool)
    (h : self.resource_existance.find key = some b) :
    (read_text_file fs self w resource_path).self.resource_existance.find key = some b := by
  have hk := does_resource_exist_internal_keeps fs self w (self.our_folder / resource_path) key b h
  cases hr : (does_resource_exist_internal fs self w (self.our_folder / resource_path)).result with
  | error e => rw [read_text_file_of_check_error hr]; exact hk
  | ok v =>
    cases v with
    | false => rw [read_text_file_of_not_exist hr]; exact hk
    | true =>
      cases ho : fs.ifstream_open (self.our_folder / resource_path).string with
      | none => rw [read_text_file_of_open_failure hr ho]; exact hk
      | some content => rw [read_text_file_of_open hr ho]; exact hk

theorem read_text_file_our_folder (fs : filesystem) (self : regular_folder_accessor)
    (w : effects) (resource_path : path) :
    (read_text_file fs self w resource_path).self.our_folder = self.our_folder := by
  have hk := does_resource_exist_internal_our_folder fs self w (self.our_folder / resource_path)
  cases hr : (does_resource_exist_internal fs self w (self.our_folder / resource_path)).result with
  | error e => rw [read_text_file_of_check_error hr]; exact hk
  | ok v =>
    cases v with
    | false => rw [read_text_file_of_not_exist hr]; exact hk
    | true =>
      cases ho : fs.ifstream_open (self.our_folder / resource_path).string with
      | none => rw [read_text_file_of_open_failure hr ho]; exact hk
      | some content => rw [read_text_file_of_open hr ho]; exact hk

/-! ## The contract of `read_text_file` -/

/-- C1: when the existence check of the resolved path `our_folder / resource_path`
reports true and the file can be opened with content `content`,
`read_text_file` returns the concatenation, in order, of the lines of
`content` without any terminator, which is `content` with every newline
removed.  This is the case whenever the path is on disk, can be opened and is
not cached as nonexistent.  In particular, on a new
accessor rooted at `/assets`, a file `/assets/shaders/a.txt` made of the two
lines `foo` and `bar` (the last one terminated or not) is read through
`shaders/a.txt` as `foobar`. -/
theorem read_text_file_concatenates_lines (fs : filesystem) (self : regular_folder_accessor)
    (w : effects) (resource_path : path) (content : String)
    (h_exists :
      (does_resource_exist_internal fs self w (self.our_folder / resource_path)).result
        = .ok true)
    (h_open : fs.ifstream_open (self.our_folder / resource_path).string = some content) :
    (read_text_file fs self w resource_path).result = .ok (String.join (text_lines content))
    ∧ (read_text_file fs self w resource_path).result = .ok (without_newlines content)
    ∧ '\n' ∉ (without_newlines content).data
    ∧ (∀ (fs1 : filesystem) (self1 : regular_folder_accessor) (w1 : effects) (p : path)
        (text : String),
        self1.resource_existance.find (self1.our_folder / p).string ≠ some false →
        fs1.fs_exists (self1.our_folder / p).string = .ok true →
        fs1.ifstream_open (self1.our_folder / p).string = some text →
        (read_text_file fs1 self1 w1 p).result = .ok (without_newlines text))
    ∧ (∀ (fs2 : filesystem) (w2 : effects) (text : String),
        fs2.fs_exists "/assets/shaders/a.txt" = .ok true →
        fs2.ifstream_open "/assets/shaders/a.txt" = some text →
        text = "foo\nbar\n" ∨ text = "foo\nbar" →
        text_lines text = ["foo", "bar"]
        ∧ (read_text_file fs2 (.ctor ⟨"/assets"⟩) w2 ⟨"shaders/a.txt"⟩).result
            = .ok "foobar") := by
  have key : ∀ (fs : filesystem) (self : regular_folder_accessor) (w : effects)
      (resource_path : path) (content : String),
      (does_resource_exist_internal fs self w (self.our_folder / resource_path)).result
        = .ok true →
      fs.ifstream_open (self.our_folder / resource_path).string = some content →
      (read_text_file fs self w resource_path).result = .ok (without_newlines content) := by
    intro fs self w resource_path content h1 h2
    rw [read_text_file_of_open h1 h2, read_lines_eq]
    simp [without_newlines, String.ext_iff]
  refine ⟨?_, key fs self w resource_path content h_exists h_open, ?_, ?_, ?_⟩
  · rw [join_text_lines]
    exact key fs self w resource_path content h_exists h_open
  · simp [without_newlines]
  · intro fs1 self1 w1 p text hc he ho
    refine key fs1 self1 w1 p text ?_ ho
    cases hf : self1.resource_existance.find (self1.our_folder / p).string with
    | some v =>
      cases v with
      | false => exact absurd hf hc
      | true => rw [does_resource_exist_internal_hit hf]
    | none => rw [does_resource_exist_internal_miss hf he]
  · intro fs2 w2 text he ho ht
    have hp : (regular_folder_accessor.ctor ⟨"/assets"⟩).our_folder / (⟨"shaders/a.txt"⟩ : path)
        = ⟨"/assets/shaders/a.txt"⟩ := by decide
    have hcheck : (does_resource_exist_internal fs2 (.ctor ⟨"/assets"⟩) w2
        ((regular_folder_accessor.ctor ⟨"/assets"⟩).our_folder / (⟨"shaders/a.txt"⟩ : path))).result
        = .ok true := by
      rw [hp, does_resource_exist_internal_miss (b := true) (by decide) he]
    have hr := key fs2 (.ctor ⟨"/assets"⟩) w2 ⟨"shaders/a.txt"⟩ text hcheck (by rw [hp]; exact ho)
    rw [hr]
    rcases ht with ht | ht <;> subst ht <;> exact ⟨by decide, by decide⟩

/-- C1, at an instance: the file of the scenario, read through an accessor whose
cache is still empty. -/
theorem read_text_file_concatenates_lines_witness :
    (does_resource_exist_internal (assets_fs "foo\nbar\n") (.ctor ⟨"/assets"⟩) no_effects
        ((regular_folder_accessor.ctor ⟨"/assets"⟩).our_folder / (⟨"shaders/a.txt"⟩ : path))).result
      = .ok true
    ∧ (assets_fs "foo\nbar\n").ifstream_open
        ((regular_folder_accessor.ctor ⟨"/assets"⟩).our_folder / (⟨"shaders/a.txt"⟩ : path)).string
      = some "foo\nbar\n"
    ∧ (read_text_file (assets_fs "foo\nbar\n") (.ctor ⟨"/assets"⟩) no_effects
        ⟨"shaders/a.txt"⟩).result = .ok (without_newlines "foo\nbar\n") :=
  ⟨by decide, by decide,
    (read_text_file_concatenates_lines (assets_fs "foo\nbar\n") (.ctor ⟨"/assets"⟩) no_effects
      ⟨"shaders/a.txt"⟩ "foo\nbar\n" (by decide) (by decide)).2.1⟩

/-- C2: when the existence check of the resolved path reports false,
`read_text_file` throws `resource_not_found_error` with the string of the
resolved path, so it returns no text, and it makes no filesystem call after
the check: the call record is the one the check left, which is the old
record or the old record followed by the check's own `fs::exists`, and holds
no opening of a file that the old record did not hold.  This is so whatever
the filesystem holds, the file itself included. -/
theorem read_text_file_not_found_without_opening (fs : filesystem)
    (self : regular_folder_accessor) (w : effects) (resource_path : path)
    (h : (does_resource_exist_internal fs self w (self.our_folder / resource_path)).result
      = .ok false) :
    (read_text_file fs self w resource_path).result
      = .error (.resource_not_found_error (self.our_folder / resource_path).string)
    ∧ (∀ text, (read_text_file fs self w resource_path).result ≠ .ok text)
    ∧ (read_text_file fs self w resource_path).world.calls
        = (does_resource_exist_internal fs self w (self.our_folder / resource_path)).world.calls
    ∧ ((read_text_file fs self w resource_path).world.calls = w.calls
        ∨ (read_text_file fs self w resource_path).world.calls
            = w.calls ++ [.fs_exists (self.our_folder / resource_path).string])
    ∧ (∀ p, fs_call.ifstream_open p ∈ (read_text_file fs self w resource_path).world.calls →
        fs_call.ifstream_open p ∈ w.calls) := by
  have hcalls := does_resource_exist_internal_calls fs self w (self.our_folder / resource_path)
  rw [read_text_file_of_not_exist h]
  refine ⟨rfl, ?_, rfl, hcalls, ?_⟩
  · intro text ht
    simp at ht
  · intro p hp
    simp only [effects.log] at hp
    rcases hcalls with hc | hc
    · rw [hc] at hp; exact hp
    · rw [hc] at hp
      simpa using hp

/-- C2, at an instance: the cache holds `false` for a file that is on disk and
readable. -/
theorem read_text_file_not_found_without_opening_witness :
    (does_resource_exist_internal (assets_fs "foo\nbar\n")
        ⟨⟨"/assets"⟩, [("/assets/shaders/a.txt", false)]⟩ no_effects
        ((⟨"/assets"⟩ : path) / (⟨"shaders/a.txt"⟩ : path))).result = .ok false
    ∧ (assets_fs "foo\nbar\n").fs_exists "/assets/shaders/a.txt" = .ok true
    ∧ (assets_fs "foo\nbar\n").ifstream_open "/assets/shaders/a.txt" = some "foo\nbar\n"
    ∧ (read_text_file (assets_fs "foo\nbar\n")
        ⟨⟨"/assets"⟩, [("/assets/shaders/a.txt", false)]⟩ no_effects ⟨"shaders/a.txt"⟩).result
      = .error (.resource_not_found_error "/assets/shaders/a.txt")
    ∧ (read_text_file (assets_fs "foo\nbar\n")
        ⟨⟨"/assets"⟩, [("/assets/shaders/a.txt", false)]⟩ no_effects ⟨"shaders/a.txt"⟩).world.calls
      = [] :=
  ⟨by decide, by decide, by decide,
    (read_text_file_not_found_without_opening (assets_fs "foo\nbar\n")
      ⟨⟨"/assets"⟩, [("/assets/shaders/a.txt", false)]⟩ no_effects ⟨"shaders/a.txt"⟩
      (by decide)).1,
    by decide⟩

/-- C3, the code at a failing input: the cache of an accessor rooted at `/assets`
holds `true` for `/assets/shaders/a.txt` (put there by an existence check made
while the file was on disk), and the file has been deleted since.
`read_text_file` throws `resource_not_found_error` with the resolved path, as
the claim says, but the entry of the path is `true` after the call, not
`false`: the `emplace` of `false` meets the existing entry and changes
nothing. -/
theorem read_text_file_open_failure_leaves_entry_true :
    (does_resource_exist_internal (assets_fs "foo\nbar\n") (.ctor ⟨"/assets"⟩) no_effects
        ⟨"/assets/shaders/a.txt"⟩).self
      = ⟨⟨"/assets"⟩, [("/assets/shaders/a.txt", true)]⟩
    ∧ empty_fs.ifstream_open "/assets/shaders/a.txt" = none
    ∧ (read_text_file empty_fs ⟨⟨"/assets"⟩, [("/assets/shaders/a.txt", true)]⟩ no_effects
        ⟨"shaders/a.txt"⟩).result
      = .error (.resource_not_found_error "/assets/shaders/a.txt")
    ∧ (read_text_file empty_fs ⟨⟨"/assets"⟩, [("/assets/shaders/a.txt", true)]⟩ no_effects
        ⟨"shaders/a.txt"⟩).self.resource_existance.find "/assets/shaders/a.txt"
      = some true
    ∧ (read_text_file empty_fs ⟨⟨"/assets"⟩, [("/assets/shaders/a.txt", true)]⟩ no_effects
        ⟨"shaders/a.txt"⟩).self.resource_existance.find "/assets/shaders/a.txt"
      ≠ some false := by
  decide

/-! ## The contract of `does_resource_exist_internal` -/

/-- C4: when the cache holds an entry for the path's string,
`does_resource_exist_internal` returns the cached boolean, adds no call to the
record of filesystem calls, leaves the accessor as it was, and does all this
whatever the filesystem holds.  Consequently, for a path that is not on disk,
the first check of a new accessor returns false, and a second check of the
same path returns false too, on any filesystem, without a further filesystem
call and without a change of the accessor. -/
theorem does_resource_exist_internal_cache_hit (fs : filesystem)
    (self : regular_folder_accessor) (w : effects) (resource_path : path) (b : Bool)
    (h : self.resource_existance.find resource_path.string = some b) :
    (does_resource_exist_internal fs self w resource_path).result = .ok b
    ∧ (does_resource_exist_internal fs self w resource_path).world.calls = w.calls
    ∧ (does_resource_exist_internal fs self w resource_path).world = w
    ∧ (does_resource_exist_internal fs self w resource_path).self = self
    ∧ (∀ fs2 : filesystem,
        does_resource_exist_internal fs2 self w resource_path
          = does_resource_exist_internal fs self w resource_path)
    ∧ (∀ (root P : path) (fs1 fs2 : filesystem) (w0 : effects),
        fs1.fs_exists P.string = .ok false →
        (does_resource_exist_internal fs1 (.ctor root) w0 P).result = .ok false
        ∧ (does_resource_exist_internal fs1 (.ctor root) w0 P).world.calls
            = w0.calls ++ [.fs_exists P.string]
        ∧ (does_resource_exist_internal fs2
              (does_resource_exist_internal fs1 (.ctor root) w0 P).self
              (does_resource_exist_internal fs1 (.ctor root) w0 P).world P).result
            = .ok false
        ∧ (does_resource_exist_internal fs2
              (does_resource_exist_internal fs1 (.ctor root) w0 P).self
              (does_resource_exist_internal fs1 (.ctor root) w0 P).world P).world.calls
            = (does_resource_exist_internal fs1 (.ctor root) w0 P).world.calls
        ∧ (does_resource_exist_internal fs2
              (does_resource_exist_internal fs1 (.ctor root) w0 P).self
              (does_resource_exist_internal fs1 (.ctor root) w0 P).world P).self
            = (does_resource_exist_internal fs1 (.ctor root) w0 P).self) := by
  refine ⟨?_, ?_, ?_, ?_, ?_, ?_⟩
  · rw [does_resource_exist_internal_hit h]
  · rw [does_resource_exist_internal_hit h]
  · rw [does_resource_exist_internal_hit h]
  · rw [does_resource_exist_internal_hit h]
  · intro fs2
    rw [does_resource_exist_internal_hit h, does_resource_exist_internal_hit h]
  · intro root P fs1 fs2 w0 hfs
    have hmiss : (regular_folder_accessor.ctor root).resource_existance.find P.string = none :=
      rfl
    have hfirst := does_resource_exist_internal_miss (w := w0) hmiss hfs
    have hcached :
        (does_resource_exist_internal fs1 (.ctor root) w0 P).self.resource_existance.find
          P.string = some false :=
      does_resource_exist_internal_cached fs1 (.ctor root) w0 P false (by rw [hfirst])
    rw [does_resource_exist_internal_hit hcached]
    rw [hfirst]
    exact ⟨rfl, rfl, rfl, rfl, rfl⟩

/-- C4, at an instance: a stale `false` entry answers for a file that is on
disk. -/
theorem does_resource_exist_internal_cache_hit_witness :
    (⟨⟨"/assets"⟩, [("/assets/shaders/a.txt", false)]⟩ :
        regular_folder_accessor).resource_existance.find
      (⟨"/assets/shaders/a.txt"⟩ : path).string = some false
    ∧ (assets_fs "foo").fs_exists "/assets/shaders/a.txt" = .ok true
    ∧ (does_resource_exist_internal (assets_fs "foo")
        ⟨⟨"/assets"⟩, [("/assets/shaders/a.txt", false)]⟩ no_effects
        ⟨"/assets/shaders/a.txt"⟩).result = .ok false :=
  ⟨by decide, by decide,
    (does_resource_exist_internal_cache_hit (assets_fs "foo")
      ⟨⟨"/assets"⟩, [("/assets/shaders/a.txt", false)]⟩ no_effects ⟨"/assets/shaders/a.txt"⟩
      false (by decide)).1⟩

/-- C5: when the cache holds no entry for the path's string and `fs::exists`
answers `b`, `does_resource_exist_internal` returns `b` after that one
filesystem call, and the cache afterwards is the old cache with the single
entry (path string, `b`) added: the new key reads `b`, every other key reads
as before, and the root is unchanged.  In particular, for a path that is on
disk when the accessor is constructed, the first check returns true and the
path is cached as true. -/
theorem does_resource_exist_internal_cache_miss (fs : filesystem)
    (self : regular_folder_accessor) (w : effects) (resource_path : path) (b : Bool)
    (h_miss : self.resource_existance.find resource_path.string = none)
    (h_fs : fs.fs_exists resource_path.string = .ok b) :
    (does_resource_exist_internal fs self w resource_path).result = .ok b
    ∧ (does_resource_exist_internal fs self w resource_path).world.calls
        = w.calls ++ [.fs_exists resource_path.string]
    ∧ (does_resource_exist_internal fs self w resource_path).self.resource_existance
        = self.resource_existance ++ [(resource_path.string, b)]
    ∧ (does_resource_exist_internal fs self w resource_path).self.resource_existance.find
        resource_path.string = some b
    ∧ (∀ key, key ≠ resource_path.string →
        (does_resource_exist_internal fs self w resource_path).self.resource_existance.find key
          = self.resource_existance.find key)
    ∧ (does_resource_exist_internal fs self w resource_path).self.our_folder = self.our_folder
    ∧ (∀ (root P : path) (fs1 : filesystem) (w0 : effects),
        fs1.fs_exists P.string = .ok true →
        (does_resource_exist_internal fs1 (.ctor root) w0 P).result = .ok true
        ∧ (does_resource_exist_internal fs1 (.ctor root) w0 P).self.resource_existance
            = [(P.string, true)]
        ∧ (does_resource_exist_internal fs1 (.ctor root) w0 P).self.resource_existance.find
            P.string = some true) := by
  refine ⟨?_, ?_, ?_, ?_, ?_, ?_, ?_⟩
  · rw [does_resource_exist_internal_miss h_miss h_fs]
  · rw [does_resource_exist_internal_miss h_miss h_fs]; rfl
  · rw [does_resource_exist_internal_miss h_miss h_fs]
  · rw [does_resource_exist_internal_miss h_miss h_fs, ← emplace_of_find_none b h_miss]
    exact find_emplace_of_find_none b h_miss
  · intro key hkey
    rw [does_resource_exist_internal_miss h_miss h_fs]
    simp only [existence_map.find]
    cases hk : List.lookup key self.resource_existance with
    | some v => exact lookup_append_of_some _ _ hk
    | none =>
      rw [lookup_append_of_none _ _ hk]
      have hne : (key == resource_path.string) = false := by simpa using hkey
      simp [List.lookup_cons, hne]
  · rw [does_resource_exist_internal_miss h_miss h_fs]
  · intro root P fs1 w0 hfs
    have hmiss : (regular_folder_accessor.ctor root).resource_existance.find P.string = none :=
      rfl
    rw [does_resource_exist_internal_miss (w := w0) hmiss hfs]
    refine ⟨rfl, rfl, ?_⟩
    simp [regular_folder_accessor.ctor, existence_map.find, List.lookup_cons]

/-- C5, at an instance: the first check of a file that is on disk. -/
theorem does_resource_exist_internal_cache_miss_witness :
    (regular_folder_accessor.ctor ⟨"/assets"⟩).resource_existance.find
      (⟨"/assets/shaders/a.txt"⟩ : path).string = none
    ∧ (assets_fs "foo").fs_exists (⟨"/assets/shaders/a.txt"⟩ : path).string = .ok true
    ∧ (does_resource_exist_internal (assets_fs "foo") (.ctor ⟨"/assets"⟩) no_effects
        ⟨"/assets/shaders/a.txt"⟩).result = .ok true
    ∧ (does_resource_exist_internal (assets_fs "foo") (.ctor ⟨"/assets"⟩) no_effects
        ⟨"/assets/shaders/a.txt"⟩).self.resource_existance
      = [("/assets/shaders/a.txt", true)] :=
  ⟨by decide, by decide,
    (does_resource_exist_internal_cache_miss (assets_fs "foo") (.ctor ⟨"/assets"⟩) no_effects
      ⟨"/assets/shaders/a.txt"⟩ true (by decide) (by decide)).1,
    (does_resource_exist_internal_cache_miss (assets_fs "foo") (.ctor ⟨"/assets"⟩) no_effects
      ⟨"/assets/shaders/a.txt"⟩ true (by decide) (by decide)).2.2.1⟩

/-! ## Lemmas on `get_all_items_in_folder` and on sequences of calls -/

theorem collect_entries_eq (entries : List directory_entry) (paths : List path) (w : effects) :
    collect_entries entries paths w
      = (paths ++ entries.map (·.path),
          ⟨w.calls, w.logged ++ entries.map fun entry => (.INFO, entry.path.string)⟩) := by
  induction entries generalizing paths w with
  | nil => simp [collect_entries]
  | cons entry entries ih => simp [collect_entries, ih, effects.log]

theorem get_all_items_in_folder_self (fs : filesystem) (self : regular_folder_accessor)
    (w : effects) (folder : path) : (get_all_items_in_folder fs self w folder).self = self := by
  unfold get_all_items_in_folder
  dsimp only
  split <;> rfl

theorem step_keeps (fs : filesystem) (op : operation) (s : regular_folder_accessor × effects)
    (key : String) (b : Bool) (h : s.1.resource_existance.find key = some b) :
    (step fs op s).1.resource_existance.find key = some b := by
  cases op with
  | read_text_file p => exact read_text_file_keeps fs s.1 s.2 p key b h
  | get_all_items_in_folder p =>
    simp only [step, get_all_items_in_folder_self]
    exact h
  | does_resource_exist_internal p =>
    exact does_resource_exist_internal_keeps fs s.1 s.2 p key b h

theorem step_our_folder (fs : filesystem) (op : operation)
    (s : regular_folder_accessor × effects) : (step fs op s).1.our_folder = s.1.our_folder := by
  cases op with
  | read_text_file p => exact read_text_file_our_folder fs s.1 s.2 p
  | get_all_items_in_folder p => simp only [step, get_all_items_in_folder_self]
  | does_resource_exist_internal p => exact does_resource_exist_internal_our_folder fs s.1 s.2 p

theorem run_keeps (calls : List (filesystem × operation))
    (s : regular_folder_accessor × effects) (key : String) (b : Bool)
    (h : s.1.resource_existance.find key = some b) :
    (run calls s).1.resource_existance.find key = some b := by
  induction calls generalizing s with
  | nil => exact h
  | cons c rest ih =>
    obtain ⟨fs, op⟩ := c
    exact ih (step fs op s) (step_keeps fs op s key b h)

theorem run_our_folder (calls : List (filesystem × operation))
    (s : regular_folder_accessor × effects) : (run calls s).1.our_folder = s.1.our_folder := by
  induction calls generalizing s with
  | nil => rfl
  | cons c rest ih =>
    obtain ⟨fs, op⟩ := c
    exact (ih (step fs op s)).trans (step_our_folder fs op s)

/-- The part of the permanence of read failures that the code has: once
`read_text_file` has failed because the existence check reported false, the
path is cached as `false`, and after any later calls, on any filesystems, the
check reports false and `read_text_file` throws `resource_not_found_error`. -/
theorem read_failure_of_missing_path_is_permanent (fs : filesystem)
    (self : regular_folder_accessor) (w : effects) (P : path)
    (calls : List (filesystem × operation)) (fs2 : filesystem)
    (h : (does_resource_exist_internal fs self w (self.our_folder / P)).result = .ok false) :
    (does_resource_exist_internal fs2
        (run calls ((read_text_file fs self w P).self, (read_text_file fs self w P).world)).1
        (run calls ((read_text_file fs self w P).self, (read_text_file fs self w P).world)).2
        (self.our_folder / P)).result = .ok false
    ∧ (read_text_file fs2
        (run calls ((read_text_file fs self w P).self, (read_text_file fs self w P).world)).1
        (run calls ((read_text_file fs self w P).self, (read_text_file fs self w P).world)).2
        P).result = .error (.resource_not_found_error (self.our_folder / P).string) := by
  have hc := does_resource_exist_internal_cached fs self w _ false h
  have hroot : (run calls
      ((read_text_file fs self w P).self, (read_text_file fs self w P).world)).1.our_folder
      = self.our_folder := by
    rw [run_our_folder]
    exact read_text_file_our_folder fs self w P
  have hkept : (run calls
      ((read_text_file fs self w P).self,
        (read_text_file fs self w P).world)).1.resource_existance.find
      (self.our_folder / P).string = some false := by
    apply run_keeps
    rw [read_text_file_of_not_exist h]
    exact hc
  have hcheck := @does_resource_exist_internal_hit fs2 _
    (run calls ((read_text_file fs self w P).self, (read_text_file fs self w P).world)).2
    _ _ hkept
  refine ⟨by rw [hcheck], ?_⟩
  have hcheck2 : (does_resource_exist_internal fs2
      (run calls ((read_text_file fs self w P).self, (read_text_file fs self w P).world)).1
      (run calls ((read_text_file fs self w P).self, (read_text_file fs self w P).world)).2
      ((run calls ((read_text_file fs self w P).self,
        (read_text_file fs self w P).world)).1.our_folder / P)).result = .ok false := by
    rw [hroot, hcheck]
  rw [read_text_file_of_not_exist hcheck2, hroot]

/-! ## The cache over the accessor's lifetime -/

/-- C6: an entry of the existence cache is never removed and never changed.  A
key that reads `b` before a call of `read_text_file`, of
`get_all_items_in_folder` or of `does_resource_exist_internal` reads `b` after
it, for every argument and every filesystem, and so it reads `b` after every
sequence of such calls, whatever the filesystem is at each of them: a path
marked nonexistent stays marked nonexistent, a path marked existent stays
marked existent. -/
theorem cache_entries_are_never_removed_or_refreshed (self : regular_folder_accessor)
    (w : effects) (key : String) (b : Bool)
    (h : self.resource_existance.find key = some b) :
    (∀ (fs : filesystem) (p : path),
        (read_text_file fs self w p).self.resource_existance.find key = some b)
    ∧ (∀ (fs : filesystem) (p : path),
        (get_all_items_in_folder fs self w p).self.resource_existance.find key = some b)
    ∧ (∀ (fs : filesystem) (p : path),
        (does_resource_exist_internal fs self w p).self.resource_existance.find key = some b)
    ∧ (∀ calls : List (filesystem × operation),
        (run calls (self, w)).1.resource_existance.find key = some b) := by
  refine ⟨?_, ?_, ?_, ?_⟩
  · intro fs p
    exact read_text_file_keeps fs self w p key b h
  · intro fs p
    rw [get_all_items_in_folder_self]
    exact h
  · intro fs p
    exact does_resource_exist_internal_keeps fs self w p key b h
  · intro calls
    exact run_keeps calls (self, w) key b h

/-- C6, at an instance: a `true` entry survives a failed read of its own
path. -/
theorem cache_entries_are_never_removed_or_refreshed_witness :
    (⟨⟨"/assets"⟩, [("/assets/shaders/a.txt", true)]⟩ :
        regular_folder_accessor).resource_existance.find "/assets/shaders/a.txt" = some true
    ∧ (read_text_file empty_fs ⟨⟨"/assets"⟩, [("/assets/shaders/a.txt", true)]⟩ no_effects
        ⟨"shaders/a.txt"⟩).self.resource_existance.find "/assets/shaders/a.txt" = some true :=
  ⟨by decide,
    (cache_entries_are_never_removed_or_refreshed
      ⟨⟨"/assets"⟩, [("/assets/shaders/a.txt", true)]⟩ no_effects "/assets/shaders/a.txt" true
      (by decide)).1 empty_fs ⟨"shaders/a.txt"⟩⟩

/-- C7, the code at a failing input: a new accessor rooted at `/assets` reads
`shaders/a.txt` while the file is found by `fs::exists` but cannot be opened;
the call throws `resource_not_found_error`.  The cache then holds `true` for
the path, and once the file can be opened again the existence check returns
true and `read_text_file` returns the file's text: the failed read did not
downgrade the path. -/
theorem read_failure_on_open_does_not_downgrade :
    (read_text_file unreadable_fs (.ctor ⟨"/assets"⟩) no_effects ⟨"shaders/a.txt"⟩).result
      = .error (.resource_not_found_error "/assets/shaders/a.txt")
    ∧ (read_text_file unreadable_fs (.ctor ⟨"/assets"⟩) no_effects ⟨"shaders/a.txt"⟩).self
      = ⟨⟨"/assets"⟩, [("/assets/shaders/a.txt", true)]⟩
    ∧ (does_resource_exist_internal (assets_fs "foo")
        (read_text_file unreadable_fs (.ctor ⟨"/assets"⟩) no_effects ⟨"shaders/a.txt"⟩).self
        (read_text_file unreadable_fs (.ctor ⟨"/assets"⟩) no_effects ⟨"shaders/a.txt"⟩).world
        ((⟨"/assets"⟩ : path) / (⟨"shaders/a.txt"⟩ : path))).result = .ok true
    ∧ (read_text_file (assets_fs "foo")
        (read_text_file unreadable_fs (.ctor ⟨"/assets"⟩) no_effects ⟨"shaders/a.txt"⟩).self
        (read_text_file unreadable_fs (.ctor ⟨"/assets"⟩) no_effects ⟨"shaders/a.txt"⟩).world
        ⟨"shaders/a.txt"⟩).result = .ok "foo" := by
  refine ⟨by decide, by decide, by decide, ?_⟩
  rw [@read_text_file_of_open _ _ _ _ "foo" (by decide) (by decide)]
  simp [read_lines, getline]

/-! ## The contract of `get_all_items_in_folder` -/

/-- C8: when the enumeration of the directory `our_folder / folder` produces
the entries named `names` and reports no error, `get_all_items_in_folder`
returns one path for each entry, in the order of the enumeration, the path
of an entry being `our_folder / folder / name`: as many paths as entries.
The directory is enumerated once and no other directory is, so the entries
of sub-directories are not visited.  For a directory without entries the
result is the empty sequence. -/
theorem get_all_items_in_folder_lists_direct_entries (fs : filesystem)
    (self : regular_folder_accessor) (w : effects) (folder : path) (names : List String)
    (h : fs.directory_iterator (self.our_folder / folder).string = (names, none)) :
    (get_all_items_in_folder fs self w folder).result
      = .ok (names.map fun name => self.our_folder / folder / ⟨name⟩)
    ∧ (∃ paths : List path,
        (get_all_items_in_folder fs self w folder).result = .ok paths
        ∧ paths.length = names.length
        ∧ ∀ (i : Nat) (hp : i < paths.length) (hn : i < names.length),
            paths.get ⟨i, hp⟩ = self.our_folder / folder / ⟨names.get ⟨i, hn⟩⟩)
    ∧ (get_all_items_in_folder fs self w folder).world.calls
        = w.calls ++ [.directory_iterator (self.our_folder / folder).string]
    ∧ (names = [] → (get_all_items_in_folder fs self w folder).result = .ok []) := by
  have hres : (get_all_items_in_folder fs self w folder).result
      = .ok (names.map fun name => self.our_folder / folder / ⟨name⟩) := by
    simp [get_all_items_in_folder, h, collect_entries_eq, directory_entries, List.map_map,
      Function.comp_def]
  refine ⟨hres, ⟨_, hres, by simp, ?_⟩, ?_, ?_⟩
  · intro i hp hn
    simp
  · simp [get_all_items_in_folder, h, collect_entries_eq, effects.call]
  · intro hnil
    rw [hres, hnil]
    rfl

/-- C8, at an instance: the directory `/assets/shaders` with its one entry. -/
theorem get_all_items_in_folder_lists_direct_entries_witness :
    (assets_fs "foo").directory_iterator
        ((regular_folder_accessor.ctor ⟨"/assets"⟩).our_folder / (⟨"shaders"⟩ : path)).string
      = (["a.txt"], none)
    ∧ (get_all_items_in_folder (assets_fs "foo") (.ctor ⟨"/assets"⟩) no_effects
        ⟨"shaders"⟩).result = .ok [⟨"/assets/shaders/a.txt"⟩] :=
  ⟨by decide,
    (get_all_items_in_folder_lists_direct_entries (assets_fs "foo") (.ctor ⟨"/assets"⟩)
      no_effects ⟨"shaders"⟩ ["a.txt"] (by decide)).1⟩

/-- C9: when the enumeration of `our_folder / folder` reports an error, at its
start (as for a folder that does not exist, that is not a directory or that
may not be read) or after some entries, `get_all_items_in_folder` throws
`filesystem_exception` holding that error; it returns no sequence, neither
the entries seen so far nor the empty one. -/
theorem get_all_items_in_folder_fault (fs : filesystem) (self : regular_folder_accessor)
    (w : effects) (folder : path) (names : List String) (error : filesystem_error)
    (h : fs.directory_iterator (self.our_folder / folder).string = (names, some error)) :
    (get_all_items_in_folder fs self w folder).result = .error (.filesystem_exception error)
    ∧ (∀ paths, (get_all_items_in_folder fs self w folder).result ≠ .ok paths)
    ∧ (get_all_items_in_folder fs self w folder).result ≠ .ok [] := by
  have hres : (get_all_items_in_folder fs self w folder).result
      = .error (.filesystem_exception error) := by
    simp [get_all_items_in_folder, h]
  refine ⟨hres, ?_, ?_⟩
  · intro paths hp
    rw [hres] at hp
    cases hp
  · intro hp
    rw [hres] at hp
    cases hp

/-- C9, at an instance: a folder that does not exist. -/
theorem get_all_items_in_folder_fault_witness :
    empty_fs.fs_exists "/assets/shaders" = .ok false
    ∧ empty_fs.directory_iterator
        ((regular_folder_accessor.ctor ⟨"/assets"⟩).our_folder / (⟨"shaders"⟩ : path)).string
      = ([], some ⟨"/assets/shaders", .no_such_file_or_directory⟩)
    ∧ (get_all_items_in_folder empty_fs (.ctor ⟨"/assets"⟩) no_effects ⟨"shaders"⟩).result
      = .error (.filesystem_exception ⟨"/assets/shaders", .no_such_file_or_directory⟩) :=
  ⟨by decide, by decide,
    (get_all_items_in_folder_fault empty_fs (.ctor ⟨"/assets"⟩) no_effects ⟨"shaders"⟩ []
      ⟨"/assets/shaders", .no_such_file_or_directory⟩ (by decide)).1⟩

/-- C10: `get_all_items_in_folder` leaves the accessor as it was, cache and root,
whether it returns a listing or throws; and its outcome does not depend on
the cache: two accessors with the same root and any two caches give the same
result and the same effects.  So an entry cached as nonexistent is listed
when it is on disk, and a listed entry is not cached by the listing. -/
theorem get_all_items_in_folder_ignores_cache (fs : filesystem)
    (self : regular_folder_accessor) (w : effects) (folder : path) :
    (get_all_items_in_folder fs self w folder).self = self
    ∧ (get_all_items_in_folder fs self w folder).self.resource_existance
        = self.resource_existance
    ∧ (get_all_items_in_folder fs self w folder).self.our_folder = self.our_folder
    ∧ (∀ cache2 : existence_map,
        (get_all_items_in_folder fs ⟨self.our_folder, cache2⟩ w folder).result
          = (get_all_items_in_folder fs self w folder).result
        ∧ (get_all_items_in_folder fs ⟨self.our_folder, cache2⟩ w folder).world
          = (get_all_items_in_folder fs self w folder).world)
    ∧ (∀ p, fs_call.fs_exists p ∈ (get_all_items_in_folder fs self w folder).world.calls →
        fs_call.fs_exists p ∈ w.calls)
    ∧ ((get_all_items_in_folder (assets_fs "foo")
          ⟨⟨"/assets"⟩, [("/assets/shaders/a.txt", false)]⟩ no_effects ⟨"shaders"⟩).result
        = .ok [⟨"/assets/shaders/a.txt"⟩]
      ∧ (get_all_items_in_folder (assets_fs "foo")
          ⟨⟨"/assets"⟩, [("/assets/shaders/a.txt", false)]⟩ no_effects
          ⟨"shaders"⟩).self.resource_existance.find "/assets/shaders/a.txt" = some false
      ∧ (get_all_items_in_folder (assets_fs "foo") (.ctor ⟨"/assets"⟩) no_effects
          ⟨"shaders"⟩).self.resource_existance.find "/assets/shaders/a.txt" = none) := by
  have hself := get_all_items_in_folder_self fs self w folder
  refine ⟨hself, by rw [hself], by rw [hself], ?_, ?_, by decide⟩
  · intro cache2
    constructor
    · unfold get_all_items_in_folder
      dsimp only
      split <;> rfl
    · unfold get_all_items_in_folder
      dsimp only
      split <;> rfl
  · intro p hp
    have hcalls : (get_all_items_in_folder fs self w folder).world.calls
        = w.calls ++ [.directory_iterator (self.our_folder / folder).string] := by
      unfold get_all_items_in_folder
      dsimp only
      split <;> simp [collect_entries_eq, effects.call]
    rw [hcalls] at hp
    simpa using hp

end nova
